import Mathlib

set_option maxHeartbeats 1000000

namespace JaegerClient

/-! Shallow embedding of tracer.go from the jaeger go tracing client: trace and
span identifiers, span contexts, reference resolution, span construction, the
codec registry with Inject and Extract, span reporting, and random ID
generation. Go baggage maps are modelled by an explicit heap of association
lists, so that the deep copy performed at span start and the aliasing of map
references are both expressible. Machine uint64 words are represented as
naturals; the code only copies, compares and bit-tests them, so no overflow
arithmetic arises. -/

/-- Modelled from the spec: flagSampled is the sampled bit of the flags byte
(the constants file is not part of src). -/
def flagSampled : Nat := 1

/-- Modelled from the spec: flagDebug is the debug bit of the flags byte
(the constants file is not part of src). -/
def flagDebug : Nat := 2

/-- Modelled from the spec: JaegerDebugHeader is the tag key carrying the
debug-id value on a debug-forced root span (the constants file is not part of
src). -/
def JaegerDebugHeader : String := "jaeger-debug-id"

/-- TraceID is a pair of 64 bit words, as in tracer.go. -/
structure TraceID where
  High : Nat
  Low : Nat
deriving DecidableEq, Repr

/-- Baggage is the contents of one Go map from string to string, listed as
key and value pairs. -/
abbrev Baggage := List (String × String)

/-- Heap of Go map values used as baggage. A span context holds an optional
index into this heap; none models the nil map. This makes the deep copy at
span start and the sharing of map references observable. -/
abbrev Heap := List Baggage

/-- Read the map stored in heap cell r. -/
def heapGet (h : Heap) (r : Nat) : Baggage := h.getD r []

/-- Allocate a fresh heap cell holding map b; returns the new heap and the
index of the fresh cell. -/
def heapAlloc (h : Heap) (b : Baggage) : Heap × Nat := (h ++ [b], h.length)

/-- Overwrite the map stored in heap cell r, modelling mutation of a Go map
through one of the references pointing at it. -/
def heapWrite (h : Heap) (r : Nat) (b : Baggage) : Heap := h.set r b

/-- SpanContext as in the jaeger client: trace, span and parent IDs, the flags
byte, a reference to the baggage map, and the debug-id token. -/
structure SpanContext where
  traceID : TraceID
  spanID : Nat
  parentID : Nat
  flags : Nat
  baggage : Option Nat
  debugID : String
deriving DecidableEq, Repr

/-- Modelled from the spec: TraceID.IsValid (the span context file is not part
of src); a trace ID is nonzero when either word is nonzero. -/
def TraceID.IsValid (t : TraceID) : Bool := t.High != 0 || t.Low != 0

/-- Modelled from the spec: SpanContext.IsValid (the span context file is not
part of src); a context is valid iff the trace ID and the span ID are nonzero. -/
def SpanContext.IsValid (c : SpanContext) : Bool :=
  c.traceID.IsValid && c.spanID != 0

/-- Modelled from the spec: isDebugIDContainerOnly (the span context file is
not part of src); the context carries only a client-forced sampling token and
no real trace. -/
def SpanContext.isDebugIDContainerOnly (c : SpanContext) : Bool :=
  !c.traceID.IsValid && c.debugID != ""

/-- Modelled from the spec: IsSampled (the span context file is not part of
src); tests the sampled bit of the flags byte. -/
def SpanContext.IsSampled (c : SpanContext) : Bool :=
  (c.flags &&& flagSampled) == flagSampled

/-- Contents of the baggage map of a context; a nil map has no entries. -/
def ctxBaggage (h : Heap) (c : SpanContext) : Baggage :=
  match c.baggage with
  | none => []
  | some r => heapGet h r

/-- Number of entries in the baggage map of a context (len of a nil Go map
is 0). -/
def baggageLen (h : Heap) (c : SpanContext) : Nat := (ctxBaggage h c).length

/-- Values carried by tags: plain strings, the opentracing span-kind enum
values, and numbers (the sampling priority is numeric). -/
inductive TagValue where
  | str (s : String)
  | enum (s : String)
  | num (n : Nat)
deriving DecidableEq, Repr

/-- Tag as stored on a span. -/
structure Tag where
  key : String
  value : TagValue
deriving DecidableEq, Repr

/-- Reference types: the two opentracing types plus the jaeger-specific
self-reference marker. -/
inductive SpanReferenceType where
  | childOf
  | followsFrom
  | selfRef
deriving DecidableEq, Repr

/-- Reference as retained on the new span (type plus jaeger context). -/
structure Reference where
  refType : SpanReferenceType
  context : SpanContext
deriving DecidableEq, Repr

/-- A caller-supplied opentracing span context: either the concrete jaeger
SpanContext of this tracer, or a foreign context of some other type. -/
inductive OTSpanContext where
  | jaeger (ctx : SpanContext)
  | foreign (id : Nat)
deriving DecidableEq, Repr

/-- A caller-supplied opentracing span reference. -/
structure OTSpanReference where
  refType : SpanReferenceType
  referencedContext : OTSpanContext
deriving DecidableEq, Repr

/-- StartSpanOptions: references, tags and start time; start time 0 models the
zero time value, replaced by the current time. -/
structure StartSpanOptions where
  references : List OTSpanReference
  tags : List (String × TagValue)
  startTime : Nat
deriving DecidableEq, Repr

/-- Span record as populated by startSpanInternal. The tracer back-reference
and the observer handle are elided; the reported field records whether the span
has already been handed to reportSpan (fresh spans have it false). -/
structure Span where
  context : SpanContext
  operationName : String
  startTime : Nat
  duration : Nat
  tags : List Tag
  references : List Reference
  firstInProcess : Bool
  reported : Bool
deriving DecidableEq, Repr

/-- Errors surfaced by Inject and Extract. -/
inductive TracerErr where
  | unsupportedFormat
  | invalidSpanContext
  | extractionFailure (code : Nat)
deriving DecidableEq, Repr

/-- An injector writes a context into a carrier; carriers are opaque here and
only the returned error matters (none models a nil error). -/
abbrev Injector := SpanContext → Nat → Option TracerErr

/-- An extractor reads a context from a carrier or fails. -/
abbrev Extractor := Nat → Except TracerErr SpanContext

/-- Tracer state relevant to the embedded operations. The field nextRandomID is
the value returned by the single call to randomID made during one StartSpan
(nonzero by the contract of randomID below); nextHighID is the value returned
by the high trace ID generator; now is the current time; sampler and
debugAllowed are the external sampler and debug throttler. Format keys are
opaque and modelled as naturals. -/
structure Tracer where
  serviceName : String
  gen128Bit : Bool
  zipkinSharedRPCSpan : Bool
  nextRandomID : Nat
  nextHighID : Nat
  now : Nat
  sampler : TraceID → String → Bool × List Tag
  debugAllowed : String → Bool
  injectors : List (Nat × Injector)
  extractors : List (Nat × Extractor)

/-- addCodec registers an injector and an extractor for a propagation format if
not already defined, as in tracer.go. -/
def Tracer.addCodec (t : Tracer) (format : Nat)
    (injector : Injector) (extractor : Extractor) : Tracer :=
  let t1 :=
    if (t.injectors.lookup format).isSome then t
    else { t with injectors := t.injectors ++ [(format, injector)] }
  if (t1.extractors.lookup format).isSome then t1
  else { t1 with extractors := t1.extractors ++ [(format, extractor)] }

/-- Inject as in tracer.go: type-assert the context, then look up the format. -/
def Tracer.Inject (t : Tracer) (ctx : OTSpanContext) (format : Nat)
    (carrier : Nat) : Option TracerErr :=
  match ctx with
  | OTSpanContext.jaeger c =>
    match t.injectors.lookup format with
    | some injector => injector c carrier
    | none => some TracerErr.unsupportedFormat
  | OTSpanContext.foreign _ => some TracerErr.invalidSpanContext

/-- Extract as in tracer.go: look up the format; on an extractor error return
the pair of no context and that error, never a partial context. -/
def Tracer.Extract (t : Tracer) (format : Nat) (carrier : Nat) :
    Option SpanContext × Option TracerErr :=
  match t.extractors.lookup format with
  | some extractor =>
    match extractor carrier with
    | Except.ok spanCtx => (some spanCtx, none)
    | Except.error e => (none, some e)
  | none => (none, some TracerErr.unsupportedFormat)

/-- External effects of reportSpan: the finished-span counter, the spans handed
to the external reporter, and the spans released back to the allocator pool. -/
structure ReportEnv where
  spansFinished : Nat
  reported : List Span
  pool : List Span
deriving DecidableEq, Repr

/-- reportSpan as in tracer.go: increment the finished counter, forward to the
reporter only when sampled, and always release the span. Release is modelled
from the spec (the span file is not part of src): it returns the record to the
allocator pool. -/
def reportSpan (env : ReportEnv) (sp : Span) : ReportEnv :=
  let env1 := { env with spansFinished := env.spansFinished + 1 }
  let env2 :=
    if sp.context.IsSampled then { env1 with reported := env1.reported ++ [sp] }
    else env1
  { env2 with pool := env2.pool ++ [sp] }

/-- The stream f gives the successive values drawn from the tracer random
number source (f n is the n-th draw, a machine uint64 word as a natural).
randomID retries while the draw is zero and returns the first nonzero draw,
exactly as the retry loop in tracer.go; the hypothesis states that the source
eventually yields a nonzero value, which is what makes the loop terminate. -/
def randomID (f : Nat → Nat) (hf : ∃ n, f n ≠ 0) : Nat := f (Nat.find hf)

/-- Association list lookup after an append, when the key is absent from the
first list. -/
theorem lookup_append_of_none {α β : Type} [BEq α] {l1 : List (α × β)}
    (l2 : List (α × β)) (a : α) (h : l1.lookup a = none) :
    (l1 ++ l2).lookup a = l2.lookup a := by
  induction l1 with
  | nil => simp
  | cons hd tl ih =>
    obtain ⟨k, b⟩ := hd
    by_cases hk : (a == k) = true
    · simp [List.lookup, hk] at h
    · simp [List.lookup, hk] at h ⊢
      exact ih h

/-- A fresh key appended at the end of an association list is found when the
key is absent from the prefix. -/
theorem lookup_append_singleton {α β : Type} [BEq α] [LawfulBEq α]
    {l : List (α × β)} (a : α) (b : β) (h : l.lookup a = none) :
    (l ++ [(a, b)]).lookup a = some b := by
  rw [lookup_append_of_none [(a, b)] a h]
  simp [List.lookup]

/-- C6: for every sequence of addCodec calls, the first registration for a
format key wins: a later addCodec call with a key already present leaves the
registered injector and extractor for that key unchanged, and a call with a
fresh key adds both. -/
theorem addCodec_first_registration_wins (t : Tracer) (format : Nat)
    (injector : Injector) (extractor : Extractor) :
    (∀ inj0 ext0, t.injectors.lookup format = some inj0 →
      t.extractors.lookup format = some ext0 →
      (t.addCodec format injector extractor).injectors.lookup format = some inj0 ∧
      (t.addCodec format injector extractor).extractors.lookup format = some ext0) ∧
    (t.injectors.lookup format = none → t.extractors.lookup format = none →
      (t.addCodec format injector extractor).injectors.lookup format = some injector ∧
      (t.addCodec format injector extractor).extractors.lookup format = some extractor) := by
  constructor
  · intro inj0 ext0 h1 h2
    simp [Tracer.addCodec, h1, h2]
  · intro h1 h2
    simp [Tracer.addCodec, h1, h2]
    exact ⟨lookup_append_singleton format injector h1,
           lookup_append_singleton format extractor h2⟩

/-- A tracer with empty codec registries used to instantiate the codec and
error-handling theorems. -/
def tracer0 : Tracer :=
  { serviceName := "svc"
    gen128Bit := false
    zipkinSharedRPCSpan := false
    nextRandomID := 42
    nextHighID := 7
    now := 100
    sampler := fun _ _ => (false, [])
    debugAllowed := fun _ => true
    injectors := []
    extractors := [] }

/-- An injector that always succeeds, used as a concrete codec value. -/
def injector0 : Injector := fun _ _ => none

/-- An extractor that always fails with a decode error, used as a concrete
codec value. -/
def extractorFail : Extractor := fun _ => Except.error (TracerErr.extractionFailure 3)

/-- An extractor that always succeeds, used as a concrete codec value. -/
def extractor0 : Extractor := fun _ => Except.ok
  { traceID := { High := 0, Low := 1 }, spanID := 1, parentID := 0, flags := 0,
    baggage := none, debugID := "" }

/-- A tracer holding one registered codec under format key 1. -/
def tracer1 : Tracer :=
  { tracer0 with injectors := [(1, injector0)], extractors := [(1, extractor0)] }

/-- Witness for C6 at concrete registries: re-registering key 1 keeps the old
pair, registering fresh key 2 adds the new pair. -/
theorem addCodec_first_registration_wins_witness :
    ((tracer1.addCodec 1 injector0 extractorFail).injectors.lookup 1 = some injector0 ∧
     (tracer1.addCodec 1 injector0 extractorFail).extractors.lookup 1 = some extractor0) ∧
    ((tracer1.addCodec 2 injector0 extractorFail).injectors.lookup 2 = some injector0 ∧
     (tracer1.addCodec 2 injector0 extractorFail).extractors.lookup 2 = some extractorFail) :=
  ⟨(addCodec_first_registration_wins tracer1 1 injector0 extractorFail).1
      injector0 extractor0 rfl rfl,
   (addCodec_first_registration_wins tracer1 2 injector0 extractorFail).2 rfl rfl⟩

/-- C7: Inject returns InvalidSpanContext whenever the supplied context is not
the concrete jaeger SpanContext type, and UnsupportedFormat when the context
has the right type but the format key has no registered injector; Extract
returns UnsupportedFormat for an unregistered format key, and whenever the
registered extractor reports an error, Extract returns no context together
with that error, never a partially populated context. -/
theorem inject_extract_errors (t : Tracer) (format carrier : Nat) :
    (∀ id, t.Inject (OTSpanContext.foreign id) format carrier =
      some TracerErr.invalidSpanContext) ∧
    (∀ c, t.injectors.lookup format = none →
      t.Inject (OTSpanContext.jaeger c) format carrier =
        some TracerErr.unsupportedFormat) ∧
    (t.extractors.lookup format = none →
      t.Extract format carrier = (none, some TracerErr.unsupportedFormat)) ∧
    (∀ extractor e, t.extractors.lookup format = some extractor →
      extractor carrier = Except.error e →
      t.Extract format carrier = (none, some e)) := by
  refine ⟨fun id => rfl, fun c h => ?_, fun h => ?_, fun extractor e h he => ?_⟩
  · simp [Tracer.Inject, h]
  · simp [Tracer.Extract, h]
  · simp [Tracer.Extract, h, he]

/-- Witness for C7 at concrete tracers: a foreign context, an unregistered
format for both directions, and a failing extractor. -/
theorem inject_extract_errors_witness :
    tracer0.Inject (OTSpanContext.foreign 0) 5 9 = some TracerErr.invalidSpanContext ∧
    tracer0.Inject (OTSpanContext.jaeger
      { traceID := { High := 0, Low := 1 }, spanID := 1, parentID := 0, flags := 0,
        baggage := none, debugID := "" }) 5 9 = some TracerErr.unsupportedFormat ∧
    tracer0.Extract 5 9 = (none, some TracerErr.unsupportedFormat) ∧
    ({ tracer0 with extractors := [(1, extractorFail)] } : Tracer).Extract 1 9 =
      (none, some (TracerErr.extractionFailure 3)) :=
  ⟨(inject_extract_errors tracer0 5 9).1 0,
   (inject_extract_errors tracer0 5 9).2.1 _ rfl,
   (inject_extract_errors tracer0 5 9).2.2.1 rfl,
   (inject_extract_errors { tracer0 with extractors := [(1, extractorFail)] } 1 9).2.2.2
     extractorFail (TracerErr.extractionFailure 3) rfl rfl⟩

/-- C10: Inject validates the concrete context type before looking up the
format: for a foreign context and an unregistered format key the result is
InvalidSpanContext, not UnsupportedFormat. -/
theorem inject_type_check_first (t : Tracer) (format carrier id : Nat)
    (h : t.injectors.lookup format = none) :
    t.Inject (OTSpanContext.foreign id) format carrier =
      some TracerErr.invalidSpanContext := rfl

/-- Witness for C10: unregistered format key 5 on the empty registry. -/
theorem inject_type_check_first_witness :
    tracer0.Inject (OTSpanContext.foreign 0) 5 9 =
      some TracerErr.invalidSpanContext :=
  inject_type_check_first tracer0 5 9 0 rfl

/-- C8: reportSpan increments the finished-span counter exactly once, forwards
the span to the external reporter iff its context has the sampled flag set,
and always releases the span back to the allocator. -/
theorem reportSpan_effects (env : ReportEnv) (sp : Span) :
    (reportSpan env sp).spansFinished = env.spansFinished + 1 ∧
    (reportSpan env sp).reported =
      env.reported ++ (if sp.context.IsSampled then [sp] else []) ∧
    (reportSpan env sp).pool = env.pool ++ [sp] := by
  by_cases h : sp.context.IsSampled
  · simp [reportSpan, h]
  · simp [reportSpan, h]

/-- C9: randomID never returns 0, assuming the random source eventually yields
a nonzero value; the retry loop stops at the first nonzero draw. -/
theorem randomID_ne_zero (f : Nat → Nat) (hf : ∃ n, f n ≠ 0) :
    randomID f hf ≠ 0 := Nat.find_spec hf

/-- Witness for C9: the identity stream yields a nonzero draw. -/
theorem randomID_ne_zero_witness :
    randomID (fun n => n) (Exists.intro 1 Nat.one_ne_zero) ≠ 0 :=
  randomID_ne_zero (fun n => n) (Exists.intro 1 Nat.one_ne_zero)

/-- Key of the opentracing span-kind tag. -/
def spanKindKey : String := "span.kind"

/-- Key of the reserved opentracing sampling-priority tag. -/
def samplingPriorityKey : String := "sampling.priority"

/-- The rpcServer test of startSpanWithOptions: the span-kind tag holds the
RPC-server enum value or the equal plain string. -/
def isRPCServer (tags : List (String × TagValue)) : Bool :=
  match tags.lookup spanKindKey with
  | some v => v == TagValue.enum "server" || v == TagValue.str "server"
  | none => false

/-- The isValidReference predicate of startSpanWithOptions: a context usable as
parent, debug-id source or baggage source. -/
def isValidReference (h : Heap) (ctx : SpanContext) : Bool :=
  ctx.IsValid || ctx.isDebugIDContainerOnly || baggageLen h ctx != 0

/-- State of the reference-processing loop of startSpanWithOptions: the
retained references, the candidate parent, whether a parent was found, the
context adopted from a self-reference, and the self-reference marker. -/
structure RefResolution where
  references : List Reference
  parent : SpanContext
  hasParent : Bool
  ctx : SpanContext
  isSelfRef : Bool
deriving DecidableEq, Repr

/-- The zero value of SpanContext (all IDs zero, nil baggage, empty debug-id). -/
def emptySpanContext : SpanContext :=
  { traceID := { High := 0, Low := 0 }, spanID := 0, parentID := 0, flags := 0,
    baggage := none, debugID := "" }

/-- Loop state before any reference has been processed. -/
def initialRefResolution : RefResolution :=
  { references := [], parent := emptySpanContext, hasParent := false,
    ctx := emptySpanContext, isSelfRef := false }

/-- One iteration of the reference loop in startSpanWithOptions: skip foreign
context types, skip unusable contexts, record a self-reference, retain the
reference, and while no ChildOf reference has been seen adopt the context as
candidate parent. -/
def processReference (h : Heap) (st : RefResolution) (ref : OTSpanReference) :
    RefResolution :=
  match ref.referencedContext with
  | OTSpanContext.foreign _ => st
  | OTSpanContext.jaeger ctxRef =>
    if !isValidReference h ctxRef then st
    else if ref.refType == SpanReferenceType.selfRef then
      { st with isSelfRef := true, ctx := ctxRef }
    else
      let st1 := { st with references :=
        st.references ++ [{ refType := ref.refType, context := ctxRef }] }
      if st1.hasParent then st1
      else { st1 with parent := ctxRef,
                      hasParent := ref.refType == SpanReferenceType.childOf }

/-- The whole reference-resolution phase of startSpanWithOptions, including the
trailing fix-up that accepts a usable non-ChildOf candidate as parent. -/
def resolveReferences (h : Heap) (refs : List OTSpanReference) : RefResolution :=
  let st := refs.foldl (processReference h) initialRefResolution
  if !st.hasParent && isValidReference h st.parent then
    { st with hasParent := true }
  else st

/-- The usable references in caller order: those whose context has the concrete
jaeger type and passes isValidReference. -/
def usableReferences (h : Heap) (refs : List OTSpanReference) : List Reference :=
  refs.filterMap fun r =>
    match r.referencedContext with
    | OTSpanContext.jaeger c =>
      if isValidReference h c then some { refType := r.refType, context := c }
      else none
    | OTSpanContext.foreign _ => none

/-- A clean Span record as handed out by the allocator. -/
def blankSpan : Span :=
  { context := emptySpanContext, operationName := "", startTime := 0,
    duration := 0, tags := [], references := [], firstInProcess := false,
    reported := false }

/-- newSpan returns a clean record from the allocator. -/
def Tracer.newSpan (_t : Tracer) : Span := blankSpan

/-- Modelled from the spec: setSamplingPriority (the span file is not part of
src). A numeric priority greater than 0 forces the sampled flag on; priority 0
clears the sampled flag provided the span has not already been reported. The
returned boolean tells the caller whether the tag was handled. -/
def setSamplingPriority (sp : Span) (v : TagValue) : Span × Bool :=
  match v with
  | TagValue.num n =>
    if 0 < n then
      ({ sp with context := { sp.context with
          flags := sp.context.flags ||| flagSampled } }, true)
    else if sp.reported then (sp, false)
    else
      ({ sp with context := { sp.context with
          flags := sp.context.flags &&& (255 - flagSampled) } }, true)
  | _ => (sp, false)

/-- Modelled from the spec: setTagNoLocking (the span file is not part of src)
appends the tag to the ordered tag sequence of the span. -/
def setTagNoLocking (sp : Span) (k : String) (v : TagValue) : Span :=
  { sp with tags := sp.tags ++ [{ key := k, value := v }] }

/-- One iteration of the tag loop in startSpanInternal: a sampling-priority tag
first mutates the sampling flags and is skipped only when setSamplingPriority
reports it unhandled; every other tag is stored. -/
def applyTag (sp : Span) (kv : String × TagValue) : Span :=
  if kv.1 == samplingPriorityKey then
    let r := setSamplingPriority sp kv.2
    if r.2 then setTagNoLocking r.1 kv.1 kv.2 else r.1
  else setTagNoLocking sp kv.1 kv.2

/-- startSpanInternal as in tracer.go: populate the span fields, copy the
internal (sampler or debug) tags, then run the caller tags through the tag
loop. The metrics counter updates and the observer hook are elided, as is the
tracer back-reference. -/
def startSpanInternal (_t : Tracer) (sp : Span) (operationName : String)
    (startTime : Nat) (internalTags : List Tag) (tags : List (String × TagValue))
    (_newTrace : Bool) (rpcServer : Bool) (references : List Reference) : Span :=
  let sp1 := { sp with
    operationName := operationName
    startTime := startTime
    duration := 0
    references := references
    firstInProcess := rpcServer || sp.context.parentID == 0 }
  if 0 < tags.length ∨ 0 < internalTags.length then
    tags.foldl applyTag { sp1 with tags := internalTags }
  else sp1

/-- Result of the context-construction branch of startSpanWithOptions, before
the baggage copy: the new context, the sampler (or debug) tags, and whether a
new trace was started. -/
structure RawContext where
  ctx : SpanContext
  samplerTags : List Tag
  newTrace : Bool
deriving Repr

/-- The ID, flag and sampling assignments of startSpanWithOptions for a
non-self-reference span: either start a new trace (fresh low word, high word
only in 128-bit mode, span ID equal to the low word, parent ID zero, cleared
flags, then debug-forced sampling or the statistical sampler), or join the
parent trace (inherited trace ID and flags; under Zipkin shared-span mode for
an RPC-server span the span and parent IDs are copied verbatim, otherwise a
fresh span ID with the parent span ID as parent). -/
def buildRawContext (t : Tracer) (operationName : String) (rr : RefResolution)
    (rpcServer : Bool) : RawContext :=
  if !rr.hasParent || !rr.parent.IsValid then
    let tid1 := { rr.ctx.traceID with Low := t.nextRandomID }
    let tid := if t.gen128Bit then { tid1 with High := t.nextHighID } else tid1
    let ctx0 := { rr.ctx with traceID := tid, spanID := tid.Low, parentID := 0,
                              flags := 0 }
    if rr.hasParent && rr.parent.isDebugIDContainerOnly &&
        t.debugAllowed operationName then
      { ctx := { ctx0 with flags := ctx0.flags ||| (flagSampled ||| flagDebug) }
        samplerTags := [{ key := JaegerDebugHeader,
                          value := TagValue.str rr.parent.debugID }]
        newTrace := true }
    else
      let s := t.sampler ctx0.traceID operationName
      if s.1 then
        { ctx := { ctx0 with flags := ctx0.flags ||| flagSampled }
          samplerTags := s.2, newTrace := true }
      else
        { ctx := ctx0, samplerTags := [], newTrace := true }
  else
    let ctx0 := { rr.ctx with traceID := rr.parent.traceID,
                              flags := rr.parent.flags }
    if rpcServer && t.zipkinSharedRPCSpan then
      { ctx := { ctx0 with spanID := rr.parent.spanID,
                           parentID := rr.parent.parentID }
        samplerTags := [], newTrace := false }
    else
      { ctx := { ctx0 with spanID := t.nextRandomID,
                           parentID := rr.parent.spanID }
        samplerTags := [], newTrace := false }

/-- The baggage-copy step of startSpanWithOptions: when a parent was found and
its baggage map is non-empty, allocate a fresh map holding a copy of the
parent entries and point the new context at it. -/
def attachBaggage (h : Heap) (parent : SpanContext) (hasParent : Bool)
    (ctx : SpanContext) : Heap × SpanContext :=
  if hasParent then
    if 0 < baggageLen h parent then
      let p := heapAlloc h (ctxBaggage h parent)
      (p.1, { ctx with baggage := some p.2 })
    else (h, ctx)
  else (h, ctx)

/-- Result of the whole context-construction phase. -/
structure BuiltContext where
  heap : Heap
  ctx : SpanContext
  samplerTags : List Tag
  newTrace : Bool
deriving Repr

/-- Context construction of startSpanWithOptions: a self-reference adopts the
referenced context verbatim and skips both the ID assignments and the baggage
copy; otherwise the IDs and flags are assigned and the parent baggage is deep
copied. -/
def buildContext (t : Tracer) (h : Heap) (operationName : String)
    (rr : RefResolution) (rpcServer : Bool) : BuiltContext :=
  if rr.isSelfRef then
    { heap := h, ctx := rr.ctx, samplerTags := [], newTrace := false }
  else
    let rc := buildRawContext t operationName rr rpcServer
    let p := attachBaggage h rr.parent rr.hasParent rc.ctx
    { heap := p.1, ctx := p.2, samplerTags := rc.samplerTags,
      newTrace := rc.newTrace }

/-- startSpanWithOptions as in tracer.go, returning the heap (carrying any
freshly copied baggage map) and the populated span. -/
def Tracer.startSpanWithOptions (t : Tracer) (h : Heap) (operationName : String)
    (options : StartSpanOptions) : Heap × Span :=
  let startTime := if options.startTime == 0 then t.now else options.startTime
  let rr := resolveReferences h options.references
  let rpcServer := isRPCServer options.tags
  let bc := buildContext t h operationName rr rpcServer
  let sp := { t.newSpan with context := bc.ctx }
  (bc.heap, startSpanInternal t sp operationName startTime bc.samplerTags
    options.tags bc.newTrace rpcServer rr.references)

/-- StartSpan applies the options and calls startSpanWithOptions. -/
def Tracer.StartSpan (t : Tracer) (h : Heap) (operationName : String)
    (options : StartSpanOptions) : Heap × Span :=
  t.startSpanWithOptions h operationName options

/-- No caller tag uses the reserved sampling-priority key. -/
def noSamplingPriorityTag (tags : List (String × TagValue)) : Prop :=
  ∀ kv ∈ tags, (kv.1 == samplingPriorityKey) = false

/-- A tag whose key is not the sampling-priority key is simply stored. -/
theorem applyTag_no_priority (sp : Span) (kv : String × TagValue)
    (h : (kv.1 == samplingPriorityKey) = false) :
    applyTag sp kv =
      { sp with tags := sp.tags ++ [{ key := kv.1, value := kv.2 }] } := by
  simp [applyTag, h, setTagNoLocking]

/-- The tag loop under tags free of the sampling-priority key: every tag is
appended and nothing else on the span changes. -/
theorem applyTags_no_priority (tags : List (String × TagValue)) (sp : Span)
    (h : noSamplingPriorityTag tags) :
    tags.foldl applyTag sp =
      { sp with tags :=
          sp.tags ++ tags.map fun kv => { key := kv.1, value := kv.2 } } := by
  induction tags generalizing sp with
  | nil => simp
  | cons kv rest ih =>
    have hkv : (kv.1 == samplingPriorityKey) = false :=
      h kv (List.mem_cons_self kv rest)
    have hrest : noSamplingPriorityTag rest :=
      fun x hx => h x (List.mem_cons_of_mem kv hx)
    rw [List.foldl_cons, applyTag_no_priority sp kv hkv, ih _ hrest]
    simp

/-- One tag application can only change the flags and the stored tags: the IDs,
the baggage reference, the debug-id and the reported mark are untouched. -/
theorem applyTag_parts (sp : Span) (kv : String × TagValue) :
    (applyTag sp kv).context.traceID = sp.context.traceID ∧
    (applyTag sp kv).context.spanID = sp.context.spanID ∧
    (applyTag sp kv).context.parentID = sp.context.parentID ∧
    (applyTag sp kv).context.baggage = sp.context.baggage ∧
    (applyTag sp kv).context.debugID = sp.context.debugID ∧
    (applyTag sp kv).reported = sp.reported := by
  obtain ⟨k, v⟩ := kv
  by_cases hk : (k == samplingPriorityKey) = true
  · cases v with
    | str s => simp [applyTag, hk, setSamplingPriority, setTagNoLocking]
    | enum s => simp [applyTag, hk, setSamplingPriority, setTagNoLocking]
    | num n =>
      by_cases hn : 0 < n
      · simp [applyTag, hk, setSamplingPriority, hn, setTagNoLocking]
      · by_cases hr : sp.reported
        · simp [applyTag, hk, setSamplingPriority, hn, hr, setTagNoLocking]
        · simp [applyTag, hk, setSamplingPriority, hn, hr, setTagNoLocking]
  · rw [applyTag_no_priority sp ⟨k, v⟩ (by simpa using hk)]
    simp

/-- The whole tag loop preserves the IDs, the baggage reference, the debug-id
and the reported mark. -/
theorem applyTags_parts (tags : List (String × TagValue)) (sp : Span) :
    (tags.foldl applyTag sp).context.traceID = sp.context.traceID ∧
    (tags.foldl applyTag sp).context.spanID = sp.context.spanID ∧
    (tags.foldl applyTag sp).context.parentID = sp.context.parentID ∧
    (tags.foldl applyTag sp).context.baggage = sp.context.baggage ∧
    (tags.foldl applyTag sp).context.debugID = sp.context.debugID ∧
    (tags.foldl applyTag sp).reported = sp.reported := by
  induction tags generalizing sp with
  | nil => exact ⟨rfl, rfl, rfl, rfl, rfl, rfl⟩
  | cons kv rest ih =>
    obtain ⟨h1, h2, h3, h4, h5, h6⟩ := applyTag_parts sp kv
    obtain ⟨g1, g2, g3, g4, g5, g6⟩ := ih (applyTag sp kv)
    exact ⟨g1.trans h1, g2.trans h2, g3.trans h3, g4.trans h4,
           g5.trans h5, g6.trans h6⟩

/-- startSpanInternal on a span with no tags yet is the tag loop over the
populated record. -/
theorem startSpanInternal_eq (t : Tracer) (sp : Span) (operationName : String)
    (startTime : Nat) (internalTags : List Tag) (tags : List (String × TagValue))
    (nt rpc : Bool) (refs : List Reference) (hsp : sp.tags = []) :
    startSpanInternal t sp operationName startTime internalTags tags nt rpc refs =
      tags.foldl applyTag
        { sp with operationName := operationName, startTime := startTime,
                  duration := 0, references := refs,
                  firstInProcess := rpc || sp.context.parentID == 0,
                  tags := internalTags } := by
  unfold startSpanInternal
  split
  · rfl
  · rename_i hcond
    push_neg at hcond
    obtain ⟨h1, h2⟩ := hcond
    have ht : tags = [] := List.length_eq_zero.mp (Nat.le_zero.mp h1)
    have hi : internalTags = [] := List.length_eq_zero.mp (Nat.le_zero.mp h2)
    subst ht; subst hi
    cases sp
    simp_all

/-- The second component of startSpanWithOptions, written as the tag loop over
the record populated from the built context. -/
theorem startSpanWithOptions_snd (t : Tracer) (h : Heap) (operationName : String)
    (options : StartSpanOptions) :
    (t.startSpanWithOptions h operationName options).2 =
      options.tags.foldl applyTag
        { blankSpan with
            context := (buildContext t h operationName
              (resolveReferences h options.references)
              (isRPCServer options.tags)).ctx
            operationName := operationName
            startTime := if options.startTime == 0 then t.now else options.startTime
            duration := 0
            references := (resolveReferences h options.references).references
            firstInProcess := isRPCServer options.tags ||
              ((buildContext t h operationName
                (resolveReferences h options.references)
                (isRPCServer options.tags)).ctx.parentID == 0)
            tags := (buildContext t h operationName
              (resolveReferences h options.references)
              (isRPCServer options.tags)).samplerTags } := by
  simp only [Tracer.startSpanWithOptions]
  rw [startSpanInternal_eq _ _ _ _ _ _ _ _ _ (by rfl)]
  rfl

/-- The first component of startSpanWithOptions is the heap produced by the
context construction. -/
theorem startSpanWithOptions_fst (t : Tracer) (h : Heap) (operationName : String)
    (options : StartSpanOptions) :
    (t.startSpanWithOptions h operationName options).1 =
      (buildContext t h operationName (resolveReferences h options.references)
        (isRPCServer options.tags)).heap := rfl

/-- Under tags free of the sampling-priority key, the context of the new span
is exactly the built context. -/
theorem startSpan_context (t : Tracer) (h : Heap) (operationName : String)
    (options : StartSpanOptions) (hsp : noSamplingPriorityTag options.tags) :
    (t.startSpanWithOptions h operationName options).2.context =
      (buildContext t h operationName (resolveReferences h options.references)
        (isRPCServer options.tags)).ctx := by
  rw [startSpanWithOptions_snd, applyTags_no_priority _ _ hsp]

/-- Under tags free of the sampling-priority key, the stored tags are the
sampler (or debug) tags followed by the caller tags in order. -/
theorem startSpan_tags (t : Tracer) (h : Heap) (operationName : String)
    (options : StartSpanOptions) (hsp : noSamplingPriorityTag options.tags) :
    (t.startSpanWithOptions h operationName options).2.tags =
      (buildContext t h operationName (resolveReferences h options.references)
        (isRPCServer options.tags)).samplerTags ++
      options.tags.map (fun kv => { key := kv.1, value := kv.2 : Tag }) := by
  rw [startSpanWithOptions_snd, applyTags_no_priority _ _ hsp]

/-- The baggage reference of the new span context is the one assigned by the
context construction, whatever the caller tags are. -/
theorem startSpan_context_baggage (t : Tracer) (h : Heap) (operationName : String)
    (options : StartSpanOptions) :
    (t.startSpanWithOptions h operationName options).2.context.baggage =
      (buildContext t h operationName (resolveReferences h options.references)
        (isRPCServer options.tags)).ctx.baggage := by
  rw [startSpanWithOptions_snd]
  exact (applyTags_parts options.tags _).2.2.2.1

/-- The baggage-copy step changes no field of the context other than the
baggage reference. -/
theorem attachBaggage_parts (h : Heap) (parent : SpanContext) (hasP : Bool)
    (ctx : SpanContext) :
    (attachBaggage h parent hasP ctx).2.traceID = ctx.traceID ∧
    (attachBaggage h parent hasP ctx).2.spanID = ctx.spanID ∧
    (attachBaggage h parent hasP ctx).2.parentID = ctx.parentID ∧
    (attachBaggage h parent hasP ctx).2.flags = ctx.flags ∧
    (attachBaggage h parent hasP ctx).2.debugID = ctx.debugID := by
  unfold attachBaggage
  split
  · split
    · exact ⟨rfl, rfl, rfl, rfl, rfl⟩
    · exact ⟨rfl, rfl, rfl, rfl, rfl⟩
  · exact ⟨rfl, rfl, rfl, rfl, rfl⟩

/-- When a parent was found and carries baggage, the copy step allocates a
fresh cell holding the parent entries. -/
theorem attachBaggage_pos (h : Heap) (parent : SpanContext) (ctx : SpanContext)
    (hb : 0 < baggageLen h parent) :
    attachBaggage h parent true ctx =
      (h ++ [ctxBaggage h parent], { ctx with baggage := some h.length }) := by
  simp [attachBaggage, hb, heapAlloc]

/-- Predicate picking ChildOf-typed references. -/
def isChildOfRef (r : Reference) : Bool := r.refType == SpanReferenceType.childOf

/-- Once a ChildOf parent has been adopted, one further loop iteration changes
neither the parent nor the hasParent mark. -/
theorem processReference_frozen (h : Heap) (st : RefResolution)
    (r : OTSpanReference) (hst : st.hasParent = true) :
    (processReference h st r).hasParent = true ∧
    (processReference h st r).parent = st.parent := by
  obtain ⟨rt, rc⟩ := r
  cases rc with
  | foreign id => exact ⟨hst, rfl⟩
  | jaeger c =>
    by_cases hu : isValidReference h c = true
    · by_cases hsel : (rt == SpanReferenceType.selfRef) = true
      · simp [processReference, hu, hsel, hst]
      · simp [processReference, hu, hsel, hst]
    · simp [processReference, hu, hst]

/-- Once a ChildOf parent has been adopted, the remaining loop iterations
change neither the parent nor the hasParent mark. -/
theorem foldl_processReference_frozen (h : Heap) (l : List OTSpanReference)
    (st : RefResolution) (hst : st.hasParent = true) :
    (l.foldl (processReference h) st).hasParent = true ∧
    (l.foldl (processReference h) st).parent = st.parent := by
  induction l generalizing st with
  | nil => exact ⟨hst, rfl⟩
  | cons a rest ih =>
    obtain ⟨h1, h2⟩ := processReference_frozen h st a hst
    obtain ⟨g1, g2⟩ := ih (processReference h st a) h1
    exact ⟨g1, g2.trans h2⟩

/-- A self-reference marker, once set, survives the remaining iterations. -/
theorem processReference_selfRef_mono (h : Heap) (st : RefResolution)
    (r : OTSpanReference) (hst : st.isSelfRef = true) :
    (processReference h st r).isSelfRef = true := by
  obtain ⟨rt, rc⟩ := r
  cases rc with
  | foreign id => exact hst
  | jaeger c =>
    by_cases hu : isValidReference h c = true
    · by_cases hsel : (rt == SpanReferenceType.selfRef) = true
      · simp [processReference, hu, hsel]
      · by_cases hp : st.hasParent = true
        · simp [processReference, hu, hsel, hp, hst]
        · simp [processReference, hu, hsel, hp, hst]
    · simp [processReference, hu, hst]

/-- A self-reference marker, once set, survives the rest of the loop. -/
theorem foldl_processReference_selfRef_mono (h : Heap) (l : List OTSpanReference)
    (st : RefResolution) (hst : st.isSelfRef = true) :
    (l.foldl (processReference h) st).isSelfRef = true := by
  induction l generalizing st with
  | nil => exact hst
  | cons a rest ih =>
    exact ih (processReference h st a) (processReference_selfRef_mono h st a hst)

/-- When the loop ends without a self-reference, the adopted context was never
assigned and keeps its initial value. -/
theorem foldl_processReference_ctx (h : Heap) (l : List OTSpanReference)
    (st : RefResolution)
    (hfin : (l.foldl (processReference h) st).isSelfRef = false) :
    (l.foldl (processReference h) st).ctx = st.ctx := by
  induction l generalizing st with
  | nil => rfl
  | cons a rest ih =>
    rw [List.foldl_cons] at hfin ⊢
    rw [ih (processReference h st a) hfin]
    obtain ⟨rt, rc⟩ := a
    cases rc with
    | foreign id => rfl
    | jaeger c =>
      by_cases hu : isValidReference h c = true
      · by_cases hsel : (rt == SpanReferenceType.selfRef) = true
        · exfalso
          have h1 : (processReference h st
              { refType := rt, referencedContext := OTSpanContext.jaeger c }).isSelfRef
              = true := by
            simp [processReference, hu, hsel]
          have h2 := foldl_processReference_selfRef_mono h rest _ h1
          rw [h2] at hfin
          exact Bool.noConfusion hfin
        · by_cases hp : st.hasParent = true
          · simp [processReference, hu, hsel, hp]
          · simp [processReference, hu, hsel, hp]
      · simp [processReference, hu]

/-- The characterization of the candidate parent computed by the reference
loop, starting from a state with no parent yet: the first usable ChildOf
reference wins; failing that, the parent ends as the last usable reference,
with the hasParent mark still unset. -/
theorem foldl_processReference_parent (h : Heap) (l : List OTSpanReference)
    (st : RefResolution) (hst : st.hasParent = false)
    (hns : ∀ r ∈ l, r.refType ≠ SpanReferenceType.selfRef) :
    (∀ r, (usableReferences h l).find? isChildOfRef = some r →
      (l.foldl (processReference h) st).hasParent = true ∧
      (l.foldl (processReference h) st).parent = r.context) ∧
    ((usableReferences h l).find? isChildOfRef = none →
      (l.foldl (processReference h) st).hasParent = false ∧
      (l.foldl (processReference h) st).parent =
        (match (usableReferences h l).getLast? with
         | some r => r.context
         | none => st.parent)) := by
  induction l generalizing st with
  | nil =>
    refine ⟨fun r hr => ?_, fun _ => ⟨hst, ?_⟩⟩
    · simp [usableReferences] at hr
    · simp [usableReferences]
  | cons a rest ih =>
    have hans : a.refType ≠ SpanReferenceType.selfRef := hns a (List.mem_cons_self a rest)
    have hrest : ∀ r ∈ rest, r.refType ≠ SpanReferenceType.selfRef :=
      fun r hr => hns r (List.mem_cons_of_mem a hr)
    obtain ⟨rt, rc⟩ := a
    have hselrt : (rt == SpanReferenceType.selfRef) = false := by
      simpa using hans
    cases rc with
    | foreign id =>
      have hstep : processReference h st
          { refType := rt, referencedContext := OTSpanContext.foreign id } = st := rfl
      have hus : usableReferences h
          ({ refType := rt, referencedContext := OTSpanContext.foreign id } :: rest) =
          usableReferences h rest := by
        simp [usableReferences, List.filterMap_cons]
      rw [List.foldl_cons, hstep, hus]
      exact ih st hst hrest
    | jaeger c =>
      by_cases hu : isValidReference h c = true
      · have hus : usableReferences h
            ({ refType := rt, referencedContext := OTSpanContext.jaeger c } :: rest) =
            { refType := rt, context := c } :: usableReferences h rest := by
          simp [usableReferences, List.filterMap_cons, hu]
        by_cases hco : rt = SpanReferenceType.childOf
        · have hstep : processReference h st
              { refType := rt, referencedContext := OTSpanContext.jaeger c } =
              { st with
                references := st.references ++ [{ refType := rt, context := c }],
                parent := c, hasParent := true } := by
            simp [processReference, hu, hselrt, hst, hco]
          rw [List.foldl_cons, hstep]
          obtain ⟨hH, hP⟩ := foldl_processReference_frozen h rest
            { st with
              references := st.references ++ [{ refType := rt, context := c }],
              parent := c, hasParent := true } rfl
          have hcpred : isChildOfRef { refType := rt, context := c } = true := by
            simp [isChildOfRef, hco]
          constructor
          · intro r hr
            rw [hus, List.find?_cons_of_pos _ hcpred] at hr
            obtain rfl : ({ refType := rt, context := c } : Reference) = r :=
              Option.some_injective _ hr
            exact ⟨hH, hP⟩
          · intro hnone
            rw [hus, List.find?_cons_of_pos _ hcpred] at hnone
            exact Option.noConfusion hnone
        · have hcob : (rt == SpanReferenceType.childOf) = false := by
            simpa using hco
          have hstep : processReference h st
              { refType := rt, referencedContext := OTSpanContext.jaeger c } =
              { st with
                references := st.references ++ [{ refType := rt, context := c }],
                parent := c, hasParent := false } := by
            simp [processReference, hu, hselrt, hst, hcob]
          rw [List.foldl_cons, hstep]
          have hcpred : isChildOfRef { refType := rt, context := c } = false := by
            simp [isChildOfRef, hcob]
          obtain ⟨ih1, ih2⟩ := ih
            { st with
              references := st.references ++ [{ refType := rt, context := c }],
              parent := c, hasParent := false } rfl hrest
          constructor
          · intro r hr
            rw [hus, List.find?_cons_of_neg _ (by simp [hcpred])] at hr
            exact ih1 r hr
          · intro hnone
            rw [hus, List.find?_cons_of_neg _ (by simp [hcpred])] at hnone
            obtain ⟨g1, g2⟩ := ih2 hnone
            refine ⟨g1, ?_⟩
            rw [hus]
            cases husr : usableReferences h rest with
            | nil =>
              rw [husr] at g2
              simpa using g2
            | cons b bs =>
              rw [husr] at g2
              rw [List.getLast?_cons_cons]
              exact g2
      · have hstep : processReference h st
            { refType := rt, referencedContext := OTSpanContext.jaeger c } = st := by
          simp [processReference, hu]
        have hus : usableReferences h
            ({ refType := rt, referencedContext := OTSpanContext.jaeger c } :: rest) =
            usableReferences h rest := by
          simp [usableReferences, List.filterMap_cons, hu]
        rw [List.foldl_cons, hstep, hus]
        exact ih st hst hrest

/-- Members of the usable-reference list pass isValidReference. -/
theorem mem_usableReferences (h : Heap) (refs : List OTSpanReference)
    (r : Reference) (hr : r ∈ usableReferences h refs) :
    isValidReference h r.context = true := by
  unfold usableReferences at hr
  rw [List.mem_filterMap] at hr
  obtain ⟨a, _, ha⟩ := hr
  obtain ⟨rt, rc⟩ := a
  cases rc with
  | foreign id => exact absurd ha (by simp)
  | jaeger c =>
    by_cases hu : isValidReference h c = true
    · simp only [hu, if_true] at ha
      obtain rfl : ({ refType := rt, context := c } : Reference) = r :=
        Option.some_injective _ ha
      exact hu
    · simp [hu] at ha

/-- The last element reported by getLast? is a member of the list. -/
theorem getLast?_mem_list {α : Type} {l : List α} {a : α}
    (h : l.getLast? = some a) : a ∈ l := by
  have ha : a ∈ l.getLast? := by rw [h]; rfl
  obtain ⟨hne, heq⟩ := List.mem_getLast?_eq_getLast ha
  exact heq ▸ List.getLast_mem hne

/-- The zero-valued context is not usable as a reference. -/
theorem isValidReference_empty (h : Heap) :
    isValidReference h emptySpanContext = false := rfl

/-- A span context that was never assigned keeps the zero value: when the
resolution ends without a self-reference, the adopted context is the zero
context. -/
theorem resolveReferences_ctx (h : Heap) (refs : List OTSpanReference)
    (hself : (resolveReferences h refs).isSelfRef = false) :
    (resolveReferences h refs).ctx = emptySpanContext := by
  have hs : (refs.foldl (processReference h) initialRefResolution).isSelfRef = false := by
    simp only [resolveReferences] at hself
    split at hself
    · simpa using hself
    · exact hself
  have hc := foldl_processReference_ctx h refs initialRefResolution hs
  simp only [resolveReferences]
  split
  · simpa [initialRefResolution] using hc
  · simpa [initialRefResolution] using hc

/-- C1 (amended): with no self-reference among the caller references, the
first usable ChildOf-typed reference becomes the parent; if no usable ChildOf
reference exists, the LAST usable reference of any type in caller-supplied
order becomes the parent; and with no usable reference at all no parent is
found. -/
theorem resolveReferences_parent (h : Heap) (refs : List OTSpanReference)
    (hns : ∀ r ∈ refs, r.refType ≠ SpanReferenceType.selfRef) :
    (∀ r, (usableReferences h refs).find? isChildOfRef = some r →
      (resolveReferences h refs).hasParent = true ∧
      (resolveReferences h refs).parent = r.context) ∧
    ((usableReferences h refs).find? isChildOfRef = none →
      ∀ r, (usableReferences h refs).getLast? = some r →
        (resolveReferences h refs).hasParent = true ∧
        (resolveReferences h refs).parent = r.context) ∧
    (usableReferences h refs = [] →
      (resolveReferences h refs).hasParent = false) := by
  obtain ⟨L1, L2⟩ := foldl_processReference_parent h refs initialRefResolution rfl hns
  refine ⟨fun r hr => ?_, fun hnone r hlast => ?_, fun hnil => ?_⟩
  · obtain ⟨hH, hP⟩ := L1 r hr
    simp only [resolveReferences]
    rw [hH]
    simpa using And.intro hH hP
  · obtain ⟨hH, hP⟩ := L2 hnone
    rw [hlast] at hP
    simp only at hP
    have hv : isValidReference h r.context = true :=
      mem_usableReferences h refs r (getLast?_mem_list hlast)
    simp only [resolveReferences]
    rw [hH, hP, hv]
    simp
  · have hnone : (usableReferences h refs).find? isChildOfRef = none := by
      rw [hnil]; rfl
    obtain ⟨hH, hP⟩ := L2 hnone
    rw [hnil] at hP
    simp only [List.getLast?_nil] at hP
    simp only [resolveReferences]
    rw [hH, hP]
    have hivr : isValidReference h initialRefResolution.parent = false := rfl
    rw [hivr]
    simpa using hH

/-- A valid root context with span ID 5, used as concrete data. -/
def ctxLowFive : SpanContext :=
  { traceID := { High := 0, Low := 5 }, spanID := 5, parentID := 0, flags := 0,
    baggage := none, debugID := "" }

/-- A valid root context with span ID 7, used as concrete data. -/
def ctxLowSeven : SpanContext :=
  { traceID := { High := 0, Low := 7 }, spanID := 7, parentID := 0, flags := 0,
    baggage := none, debugID := "" }

/-- Two FollowsFrom references to two distinct valid contexts. -/
def refsTwoFollows : List OTSpanReference :=
  [{ refType := SpanReferenceType.followsFrom,
     referencedContext := OTSpanContext.jaeger ctxLowFive },
   { refType := SpanReferenceType.followsFrom,
     referencedContext := OTSpanContext.jaeger ctxLowSeven }]

/-- C1 (counterexample): with two usable FollowsFrom references and no ChildOf
reference, the first usable reference wraps ctxLowFive, yet the resolved
parent is ctxLowSeven, the last usable reference — the loop keeps overwriting
the candidate parent until a ChildOf reference is seen. -/
theorem resolveReferences_not_first_usable :
    (usableReferences [] refsTwoFollows).find? isChildOfRef = none ∧
    (usableReferences [] refsTwoFollows).head? =
      some { refType := SpanReferenceType.followsFrom, context := ctxLowFive } ∧
    (resolveReferences [] refsTwoFollows).hasParent = true ∧
    (resolveReferences [] refsTwoFollows).parent ≠ ctxLowFive ∧
    (resolveReferences [] refsTwoFollows).parent = ctxLowSeven := by decide

/-- A FollowsFrom reference followed by a ChildOf reference. -/
def refsFollowsChild : List OTSpanReference :=
  [{ refType := SpanReferenceType.followsFrom,
     referencedContext := OTSpanContext.jaeger ctxLowFive },
   { refType := SpanReferenceType.childOf,
     referencedContext := OTSpanContext.jaeger ctxLowSeven }]

/-- Witness for C1: the first usable ChildOf reference wins even when a
FollowsFrom reference precedes it. -/
theorem resolveReferences_parent_witness :
    (resolveReferences [] refsFollowsChild).hasParent = true ∧
    (resolveReferences [] refsFollowsChild).parent = ctxLowSeven :=
  (resolveReferences_parent [] refsFollowsChild (by decide)).1
    { refType := SpanReferenceType.childOf, context := ctxLowSeven } (by decide)

/-- Joining a valid parent: trace ID and flags are inherited, the span and
parent IDs follow the Zipkin-shared-span switch, no sampler tags are emitted
and no new trace is started. -/
theorem buildRawContext_join (t : Tracer) (op : String) (rr : RefResolution)
    (rpc : Bool) (hp : rr.hasParent = true) (hv : rr.parent.IsValid = true) :
    (buildRawContext t op rr rpc).ctx.traceID = rr.parent.traceID ∧
    (buildRawContext t op rr rpc).ctx.flags = rr.parent.flags ∧
    (buildRawContext t op rr rpc).samplerTags = [] ∧
    (buildRawContext t op rr rpc).newTrace = false ∧
    (if (rpc && t.zipkinSharedRPCSpan) = true then
      (buildRawContext t op rr rpc).ctx.spanID = rr.parent.spanID ∧
      (buildRawContext t op rr rpc).ctx.parentID = rr.parent.parentID
     else
      (buildRawContext t op rr rpc).ctx.spanID = t.nextRandomID ∧
      (buildRawContext t op rr rpc).ctx.parentID = rr.parent.spanID) := by
  have hcond : (!rr.hasParent || !rr.parent.IsValid) = false := by simp [hp, hv]
  by_cases hz : (rpc && t.zipkinSharedRPCSpan) = true
  · simp [buildRawContext, hcond, hz]
  · simp [buildRawContext, hcond, hz]

/-- C2 (amended): when the resolved parent is valid and no self-reference is
present (and no sampling-priority tag interferes), the new span inherits the
parent trace ID and flags; under Zipkin-shared-span mode with the RPC-server
tag the span and parent IDs are copied verbatim from the parent, and otherwise
the span ID is the freshly drawn nonzero random ID — which is not checked
against the parent span ID — and the parent ID is the parent span ID. -/
theorem startSpan_join_ids (t : Tracer) (h : Heap) (op : String)
    (options : StartSpanOptions)
    (hsp : noSamplingPriorityTag options.tags)
    (hself : (resolveReferences h options.references).isSelfRef = false)
    (hp : (resolveReferences h options.references).hasParent = true)
    (hv : (resolveReferences h options.references).parent.IsValid = true)
    (hnz : t.nextRandomID ≠ 0) :
    (t.startSpanWithOptions h op options).2.context.traceID =
      (resolveReferences h options.references).parent.traceID ∧
    (t.startSpanWithOptions h op options).2.context.flags =
      (resolveReferences h options.references).parent.flags ∧
    (if (isRPCServer options.tags && t.zipkinSharedRPCSpan) = true then
      (t.startSpanWithOptions h op options).2.context.spanID =
        (resolveReferences h options.references).parent.spanID ∧
      (t.startSpanWithOptions h op options).2.context.parentID =
        (resolveReferences h options.references).parent.parentID
     else
      (t.startSpanWithOptions h op options).2.context.spanID = t.nextRandomID ∧
      (t.startSpanWithOptions h op options).2.context.spanID ≠ 0 ∧
      (t.startSpanWithOptions h op options).2.context.parentID =
        (resolveReferences h options.references).parent.spanID) := by
  rw [startSpan_context t h op options hsp]
  have hbc : (buildContext t h op (resolveReferences h options.references)
      (isRPCServer options.tags)).ctx =
      (attachBaggage h (resolveReferences h options.references).parent
        (resolveReferences h options.references).hasParent
        (buildRawContext t op (resolveReferences h options.references)
          (isRPCServer options.tags)).ctx).2 := by
    simp [buildContext, hself]
  rw [hbc]
  obtain ⟨a1, a2, a3, a4, a5⟩ := attachBaggage_parts h
    (resolveReferences h options.references).parent
    (resolveReferences h options.references).hasParent
    (buildRawContext t op (resolveReferences h options.references)
      (isRPCServer options.tags)).ctx
  rw [a1, a2, a3, a4]
  obtain ⟨b1, b2, b3, b4, b5⟩ := buildRawContext_join t op
    (resolveReferences h options.references) (isRPCServer options.tags) hp hv
  refine ⟨b1, b2, ?_⟩
  by_cases hz : (isRPCServer options.tags && t.zipkinSharedRPCSpan) = true
  · rw [if_pos hz]
    rw [if_pos hz] at b5
    exact b5
  · rw [if_neg hz]
    rw [if_neg hz] at b5
    exact ⟨b5.1, by rw [b5.1]; exact hnz, b5.2⟩

/-- A valid parent context with span ID 5 and flags 1. -/
def ctxParent5 : SpanContext :=
  { traceID := { High := 0, Low := 9 }, spanID := 5, parentID := 3, flags := 1,
    baggage := none, debugID := "" }

/-- A tracer whose next random draw collides with the parent span ID. -/
def tracerRand5 : Tracer := { tracer0 with nextRandomID := 5 }

/-- Options with a single ChildOf reference to ctxParent5. -/
def optsChild5 : StartSpanOptions :=
  { references := [{ refType := SpanReferenceType.childOf,
                     referencedContext := OTSpanContext.jaeger ctxParent5 }],
    tags := [], startTime := 0 }

/-- C2 (counterexample): the code never compares the fresh random span ID with
the parent span ID, so when the random source draws exactly that value the new
span gets the same span ID as its parent even though this is not an RPC-server
span under Zipkin-shared-span mode. -/
theorem startSpan_spanID_collision :
    tracerRand5.zipkinSharedRPCSpan = false ∧
    isRPCServer optsChild5.tags = false ∧
    tracerRand5.nextRandomID ≠ 0 ∧
    (resolveReferences [] optsChild5.references).hasParent = true ∧
    (resolveReferences [] optsChild5.references).parent = ctxParent5 ∧
    (tracerRand5.startSpanWithOptions [] "op" optsChild5).2.context.spanID =
      ctxParent5.spanID := by decide

/-- Witness for C2: a plain ChildOf span join, with the Zipkin branch not
taken. -/
theorem startSpan_join_ids_witness :
    (tracer0.startSpanWithOptions [] "op" optsChild5).2.context.traceID =
      { High := 0, Low := 9 } ∧
    (tracer0.startSpanWithOptions [] "op" optsChild5).2.context.flags = 1 ∧
    (tracer0.startSpanWithOptions [] "op" optsChild5).2.context.spanID = 42 ∧
    (tracer0.startSpanWithOptions [] "op" optsChild5).2.context.parentID = 5 := by
  have H := startSpan_join_ids tracer0 [] "op" optsChild5
    (by intro kv hkv; cases hkv) (by decide) (by decide) (by decide) (by decide)
  rw [if_neg (by decide)] at H
  exact ⟨H.1, H.2.1, H.2.2.1, H.2.2.2.2⟩

/-- Starting a new trace: the low word of the trace ID is the fresh random
draw, the high word is generated only in 128-bit mode, the span ID equals the
low word, the parent ID is zero, and the flags are first cleared and then set
either by the debug-forced path (which does not depend on the sampler) or by
the statistical sampler consulted with the new trace ID. -/
theorem buildRawContext_new (t : Tracer) (op : String) (rr : RefResolution)
    (rpc : Bool) (hcond : (!rr.hasParent || !rr.parent.IsValid) = true) :
    (buildRawContext t op rr rpc).ctx.traceID.Low = t.nextRandomID ∧
    (buildRawContext t op rr rpc).ctx.traceID.High =
      (if t.gen128Bit = true then t.nextHighID else rr.ctx.traceID.High) ∧
    (buildRawContext t op rr rpc).ctx.spanID = t.nextRandomID ∧
    (buildRawContext t op rr rpc).ctx.parentID = 0 ∧
    (buildRawContext t op rr rpc).newTrace = true ∧
    (if (rr.hasParent && rr.parent.isDebugIDContainerOnly && t.debugAllowed op) = true then
      (buildRawContext t op rr rpc).ctx.flags = (flagSampled ||| flagDebug) ∧
      (buildRawContext t op rr rpc).samplerTags =
        [{ key := JaegerDebugHeader, value := TagValue.str rr.parent.debugID }]
     else
      (buildRawContext t op rr rpc).ctx.flags =
        (if (t.sampler (buildRawContext t op rr rpc).ctx.traceID op).1 = true
         then flagSampled else 0) ∧
      (buildRawContext t op rr rpc).samplerTags =
        (if (t.sampler (buildRawContext t op rr rpc).ctx.traceID op).1 = true
         then (t.sampler (buildRawContext t op rr rpc).ctx.traceID op).2 else [])) := by
  by_cases hdbg : (rr.hasParent && rr.parent.isDebugIDContainerOnly &&
      t.debugAllowed op) = true
  · by_cases hg : t.gen128Bit = true
    · simp [buildRawContext, hcond, hdbg, hg]
    · simp [buildRawContext, hcond, hdbg, hg]
  · by_cases hg : t.gen128Bit = true
    · by_cases hs : (t.sampler { High := t.nextHighID, Low := t.nextRandomID } op).1 = true
      · simp [buildRawContext, hcond, hdbg, hg, hs]
      · simp [buildRawContext, hcond, hdbg, hg, hs]
    · by_cases hs : (t.sampler { High := rr.ctx.traceID.High, Low := t.nextRandomID } op).1 = true
      · simp [buildRawContext, hcond, hdbg, hg, hs]
      · simp [buildRawContext, hcond, hdbg, hg, hs]

/-- C3: with no usable parent or an invalid parent and no self-reference (and
no sampling-priority tag interfering), the new context gets a fresh nonzero
random trace ID low word, a high word only in 128-bit mode, span ID equal to
the low word, parent ID zero, and cleared flags; then, when the resolved
parent is a debug-id-only container and the throttler allows the operation,
the sampled and debug flags are set and a tag carrying the debug-id value is
attached without consulting the sampler (the conclusion holds for every
sampler); otherwise the sampler is consulted with the new trace ID, and when
it reports sampled the sampled flag is set and its tags are attached. -/
theorem startSpan_new_trace (t : Tracer) (h : Heap) (op : String)
    (options : StartSpanOptions)
    (hsp : noSamplingPriorityTag options.tags)
    (hself : (resolveReferences h options.references).isSelfRef = false)
    (hpar : (resolveReferences h options.references).hasParent = false ∨
            (resolveReferences h options.references).parent.IsValid = false)
    (hnz : t.nextRandomID ≠ 0) :
    (t.startSpanWithOptions h op options).2.context.traceID.Low = t.nextRandomID ∧
    (t.startSpanWithOptions h op options).2.context.traceID.Low ≠ 0 ∧
    (t.startSpanWithOptions h op options).2.context.traceID.High =
      (if t.gen128Bit = true then t.nextHighID else 0) ∧
    (t.startSpanWithOptions h op options).2.context.spanID = t.nextRandomID ∧
    (t.startSpanWithOptions h op options).2.context.parentID = 0 ∧
    (if ((resolveReferences h options.references).hasParent &&
        (resolveReferences h options.references).parent.isDebugIDContainerOnly &&
        t.debugAllowed op) = true then
      (t.startSpanWithOptions h op options).2.context.flags =
        (flagSampled ||| flagDebug) ∧
      (t.startSpanWithOptions h op options).2.tags =
        { key := JaegerDebugHeader,
          value := TagValue.str (resolveReferences h options.references).parent.debugID } ::
          options.tags.map (fun kv => { key := kv.1, value := kv.2 : Tag })
     else
      (t.startSpanWithOptions h op options).2.context.flags =
        (if (t.sampler (t.startSpanWithOptions h op options).2.context.traceID op).1 = true
         then flagSampled else 0) ∧
      (t.startSpanWithOptions h op options).2.tags =
        (if (t.sampler (t.startSpanWithOptions h op options).2.context.traceID op).1 = true
         then (t.sampler (t.startSpanWithOptions h op options).2.context.traceID op).2
         else []) ++
          options.tags.map (fun kv => { key := kv.1, value := kv.2 : Tag })) := by
  have hctx0 : (resolveReferences h options.references).ctx = emptySpanContext :=
    resolveReferences_ctx h options.references hself
  have hcond : (!(resolveReferences h options.references).hasParent ||
      !(resolveReferences h options.references).parent.IsValid) = true := by
    rcases hpar with h1 | h1 <;> simp [h1]
  have hc : (t.startSpanWithOptions h op options).2.context =
      (attachBaggage h (resolveReferences h options.references).parent
        (resolveReferences h options.references).hasParent
        (buildRawContext t op (resolveReferences h options.references)
          (isRPCServer options.tags)).ctx).2 := by
    rw [startSpan_context t h op options hsp]
    simp [buildContext, hself]
  have ht : (t.startSpanWithOptions h op options).2.tags =
      (buildRawContext t op (resolveReferences h options.references)
        (isRPCServer options.tags)).samplerTags ++
      options.tags.map (fun kv => { key := kv.1, value := kv.2 : Tag }) := by
    rw [startSpan_tags t h op options hsp]
    simp [buildContext, hself]
  obtain ⟨a1, a2, a3, a4, a5⟩ := attachBaggage_parts h
    (resolveReferences h options.references).parent
    (resolveReferences h options.references).hasParent
    (buildRawContext t op (resolveReferences h options.references)
      (isRPCServer options.tags)).ctx
  obtain ⟨b1, b2, b3, b4, b5, b6⟩ := buildRawContext_new t op
    (resolveReferences h options.references) (isRPCServer options.tags) hcond
  rw [hctx0] at b2
  have hhigh : (if t.gen128Bit = true then t.nextHighID else emptySpanContext.traceID.High) =
      (if t.gen128Bit = true then t.nextHighID else 0) := rfl
  rw [hhigh] at b2
  rw [hc, ht, a1, a2, a3, a4]
  refine ⟨b1, by rw [b1]; exact hnz, b2, b3, b4, ?_⟩
  by_cases hdbg : ((resolveReferences h options.references).hasParent &&
      (resolveReferences h options.references).parent.isDebugIDContainerOnly &&
      t.debugAllowed op) = true
  · rw [if_pos hdbg]
    rw [if_pos hdbg] at b6
    exact ⟨b6.1, by rw [b6.2]; rfl⟩
  · rw [if_neg hdbg]
    rw [if_neg hdbg] at b6
    exact ⟨b6.1, by rw [b6.2]⟩

/-- A debug-id-only context carrying the token tok. -/
def ctxDebugOnly : SpanContext :=
  { traceID := { High := 0, Low := 0 }, spanID := 0, parentID := 0, flags := 0,
    baggage := none, debugID := "tok" }

/-- Options with a single FollowsFrom reference to the debug-id-only context. -/
def optsDebugRef : StartSpanOptions :=
  { references := [{ refType := SpanReferenceType.followsFrom,
                     referencedContext := OTSpanContext.jaeger ctxDebugOnly }],
    tags := [], startTime := 0 }

/-- Witness for C3: the debug-forced path on a tracer whose sampler always
answers no still yields sampled and debug flags and the debug-id tag. -/
theorem startSpan_new_trace_witness :
    (tracer0.startSpanWithOptions [] "op" optsDebugRef).2.context.traceID.Low = 42 ∧
    (tracer0.startSpanWithOptions [] "op" optsDebugRef).2.context.traceID.High = 0 ∧
    (tracer0.startSpanWithOptions [] "op" optsDebugRef).2.context.spanID = 42 ∧
    (tracer0.startSpanWithOptions [] "op" optsDebugRef).2.context.parentID = 0 ∧
    (tracer0.startSpanWithOptions [] "op" optsDebugRef).2.context.flags = 3 ∧
    (tracer0.startSpanWithOptions [] "op" optsDebugRef).2.tags =
      [{ key := JaegerDebugHeader, value := TagValue.str "tok" }] := by
  have H := startSpan_new_trace tracer0 [] "op" optsDebugRef
    (by intro kv hkv; cases hkv) (by decide) (Or.inr (by decide)) (by decide)
  rw [if_neg (by decide), if_pos (by decide)] at H
  exact ⟨H.1, H.2.2.1, H.2.2.2.1, H.2.2.2.2.1, H.2.2.2.2.2.1, H.2.2.2.2.2.2⟩

/-- Reading the freshly appended heap cell yields the stored map. -/
theorem heapGet_append_fresh (h : Heap) (m : Baggage) :
    heapGet (h ++ [m]) h.length = m := by
  simp [heapGet, List.getD]

/-- Appending a cell leaves the old cells readable unchanged. -/
theorem heapGet_append_lt (h : Heap) (m : Baggage) (r : Nat) (hr : r < h.length) :
    heapGet (h ++ [m]) r = heapGet h r := by
  simp [heapGet, List.getD, List.getElem?_append_left hr]

/-- Writing one heap cell leaves every other cell unchanged. -/
theorem heapGet_write_ne (h : Heap) (i r : Nat) (b : Baggage) (hne : i ≠ r) :
    heapGet (heapWrite h i b) r = heapGet h r := by
  simp [heapGet, heapWrite, List.getD, List.getElem?_set_ne hne]

/-- C4 (amended): when a parent carrying baggage is resolved and no
self-reference is present, the new context points at a freshly allocated heap
cell (index equal to the old heap length) whose contents equal the parent
baggage, and overwriting the fresh cell leaves the cell referenced by the
parent unchanged. -/
theorem startSpan_baggage_copy (t : Tracer) (h : Heap) (op : String)
    (options : StartSpanOptions)
    (hself : (resolveReferences h options.references).isSelfRef = false)
    (hp : (resolveReferences h options.references).hasParent = true)
    (hbag : 0 < baggageLen h (resolveReferences h options.references).parent) :
    (t.startSpanWithOptions h op options).2.context.baggage = some h.length ∧
    (t.startSpanWithOptions h op options).1 =
      h ++ [ctxBaggage h (resolveReferences h options.references).parent] ∧
    ctxBaggage (t.startSpanWithOptions h op options).1
        (t.startSpanWithOptions h op options).2.context =
      ctxBaggage h (resolveReferences h options.references).parent ∧
    (∀ r, (resolveReferences h options.references).parent.baggage = some r →
      r < h.length → ∀ b,
        heapGet (heapWrite (t.startSpanWithOptions h op options).1 h.length b) r =
          heapGet h r) := by
  have hatt : attachBaggage h (resolveReferences h options.references).parent
      (resolveReferences h options.references).hasParent
      (buildRawContext t op (resolveReferences h options.references)
        (isRPCServer options.tags)).ctx =
      (h ++ [ctxBaggage h (resolveReferences h options.references).parent],
       { (buildRawContext t op (resolveReferences h options.references)
            (isRPCServer options.tags)).ctx with baggage := some h.length }) := by
    rw [hp]
    exact attachBaggage_pos h (resolveReferences h options.references).parent _ hbag
  have hheap : (t.startSpanWithOptions h op options).1 =
      h ++ [ctxBaggage h (resolveReferences h options.references).parent] := by
    rw [startSpanWithOptions_fst]
    simp only [buildContext, hself]
    simp [hatt]
  have hbg : (t.startSpanWithOptions h op options).2.context.baggage =
      some h.length := by
    rw [startSpan_context_baggage]
    simp only [buildContext, hself]
    simp [hatt]
  refine ⟨hbg, hheap, ?_, ?_⟩
  · simp only [ctxBaggage, hbg, hheap]
    exact heapGet_append_fresh h _
  · intro r hr hlt b
    rw [hheap]
    rw [heapGet_write_ne _ _ _ _ (by omega)]
    exact heapGet_append_lt h _ r hlt

/-- A valid context used as the target of a self-reference. -/
def ctxSelf4 : SpanContext :=
  { traceID := { High := 0, Low := 4 }, spanID := 4, parentID := 0, flags := 0,
    baggage := none, debugID := "" }

/-- A valid parent context pointing at baggage heap cell 0. -/
def ctxParentBag : SpanContext :=
  { traceID := { High := 0, Low := 9 }, spanID := 9, parentID := 0, flags := 0,
    baggage := some 0, debugID := "" }

/-- A heap holding one baggage map with a single entry. -/
def heapKV : Heap := [[("k", "v")]]

/-- Options with a self-reference followed by a FollowsFrom reference to a
baggage-carrying parent. -/
def optsSelfPar : StartSpanOptions :=
  { references := [{ refType := SpanReferenceType.selfRef,
                     referencedContext := OTSpanContext.jaeger ctxSelf4 },
                   { refType := SpanReferenceType.followsFrom,
                     referencedContext := OTSpanContext.jaeger ctxParentBag }],
    tags := [], startTime := 0 }

/-- C4 (counterexample): a parent carrying baggage is resolved, yet because a
self-reference is present the whole construction block including the baggage
copy is skipped, and the new span ends with empty baggage instead of a copy of
the parent entries. -/
theorem startSpan_selfRef_skips_baggage_copy :
    (resolveReferences heapKV optsSelfPar.references).hasParent = true ∧
    (resolveReferences heapKV optsSelfPar.references).parent = ctxParentBag ∧
    0 < baggageLen heapKV ctxParentBag ∧
    ctxBaggage heapKV ctxParentBag = [("k", "v")] ∧
    ctxBaggage (tracer0.startSpanWithOptions heapKV "op" optsSelfPar).1
      (tracer0.startSpanWithOptions heapKV "op" optsSelfPar).2.context = [] := by
  decide

/-- Options with a single ChildOf reference to the baggage-carrying parent. -/
def optsChildBag : StartSpanOptions :=
  { references := [{ refType := SpanReferenceType.childOf,
                     referencedContext := OTSpanContext.jaeger ctxParentBag }],
    tags := [], startTime := 0 }

/-- Witness for C4: the child points at the fresh cell 1 holding a copy of the
parent entries, and writing the fresh cell leaves cell 0 unchanged. -/
theorem startSpan_baggage_copy_witness :
    (tracer0.startSpanWithOptions heapKV "op" optsChildBag).2.context.baggage =
      some 1 ∧
    ctxBaggage (tracer0.startSpanWithOptions heapKV "op" optsChildBag).1
      (tracer0.startSpanWithOptions heapKV "op" optsChildBag).2.context =
      [("k", "v")] ∧
    heapGet (heapWrite (tracer0.startSpanWithOptions heapKV "op" optsChildBag).1
      1 [("x", "y")]) 0 = [("k", "v")] := by
  have H := startSpan_baggage_copy tracer0 heapKV "op" optsChildBag
    (by decide) (by decide) (by decide)
  exact ⟨H.1, H.2.2.1, H.2.2.2 0 rfl (by decide) [("x", "y")]⟩

/-- Setting bit 0 makes the low bit read back as set. -/
theorem lor_one_land_one (x : Nat) : (x ||| 1) &&& 1 = 1 := by
  apply Nat.eq_of_testBit_eq
  intro i
  simp [Nat.testBit_land, Nat.testBit_lor]
  cases i with
  | zero => simp
  | succ n => simp [Nat.testBit_succ]

/-- Masking with 254 clears the low bit. -/
theorem land_mask_land_one (x : Nat) : (x &&& 254) &&& 1 = 0 := by
  apply Nat.eq_of_testBit_eq
  intro i
  simp only [Nat.testBit_land, Nat.zero_testBit]
  cases i with
  | zero => simp
  | succ n => simp [Nat.testBit_succ]

/-- Forcing the sampled flag makes IsSampled true whatever the flags were. -/
theorem IsSampled_force (c : SpanContext) :
    SpanContext.IsSampled { c with flags := c.flags ||| flagSampled } = true := by
  simp [SpanContext.IsSampled, flagSampled, lor_one_land_one]

/-- Clearing the sampled flag makes IsSampled false whatever the flags were. -/
theorem IsSampled_clear (c : SpanContext) :
    SpanContext.IsSampled
      { c with flags := c.flags &&& (255 - flagSampled) } = false := by
  simp [SpanContext.IsSampled, flagSampled, land_mask_land_one]

/-- The sampling-priority tag both mutates the flags and is stored, on any
span not yet reported. -/
theorem applyTag_priority (sp : Span) (v : Nat) (hrep : sp.reported = false) :
    applyTag sp (samplingPriorityKey, TagValue.num v) =
      (if 0 < v then
        { sp with
          context := { sp.context with flags := sp.context.flags ||| flagSampled },
          tags := sp.tags ++ [{ key := samplingPriorityKey, value := TagValue.num v }] }
       else
        { sp with
          context := { sp.context with
            flags := sp.context.flags &&& (255 - flagSampled) },
          tags := sp.tags ++ [{ key := samplingPriorityKey, value := TagValue.num v }] }) := by
  by_cases hv : 0 < v
  · simp [applyTag, setSamplingPriority, hv, setTagNoLocking]
  · simp [applyTag, setSamplingPriority, hv, hrep, setTagNoLocking]

/-- C5 (amended): a StartSpan call whose single caller tag is the reserved
sampling-priority key with a numeric value forces the sampled flag on when the
value is positive — whatever the sampler answered — and clears it when the
value is zero (the fresh span has not been reported); in both cases the tag is
ALSO stored on the span as a regular tag. -/
theorem startSpan_sampling_priority (t : Tracer) (h : Heap) (op : String)
    (options : StartSpanOptions) (v : Nat)
    (htags : options.tags = [(samplingPriorityKey, TagValue.num v)]) :
    (0 < v → (t.startSpanWithOptions h op options).2.context.IsSampled = true) ∧
    (v = 0 → (t.startSpanWithOptions h op options).2.context.IsSampled = false) ∧
    ({ key := samplingPriorityKey, value := TagValue.num v } : Tag) ∈
      (t.startSpanWithOptions h op options).2.tags := by
  rw [startSpanWithOptions_snd, htags]
  simp only [List.foldl_cons, List.foldl_nil]
  rw [applyTag_priority _ v rfl]
  by_cases hv : 0 < v
  · rw [if_pos hv]
    refine ⟨fun _ => IsSampled_force _, fun hv0 => absurd hv (by omega), ?_⟩
    simp
  · rw [if_neg hv]
    refine ⟨fun hpos => absurd hpos hv, fun _ => IsSampled_clear _, ?_⟩
    simp

/-- Options whose single tag is a sampling priority of 1. -/
def optsPrio1 : StartSpanOptions :=
  { references := [], tags := [(samplingPriorityKey, TagValue.num 1)],
    startTime := 0 }

/-- C5 (counterexample): on a tracer whose sampler always answers no, a
sampling-priority tag of 1 forces the sampled flag AND is stored on the span
as a regular tag — the tag is not consumed instead of being stored. -/
theorem startSpan_priority_tag_stored :
    (tracer0.startSpanWithOptions [] "op" optsPrio1).2.context.IsSampled = true ∧
    ({ key := samplingPriorityKey, value := TagValue.num 1 } : Tag) ∈
      (tracer0.startSpanWithOptions [] "op" optsPrio1).2.tags := by decide

/-- Options whose single tag is a sampling priority of 0. -/
def optsPrio0 : StartSpanOptions :=
  { references := [], tags := [(samplingPriorityKey, TagValue.num 0)],
    startTime := 0 }

/-- A tracer whose sampler always answers yes. -/
def tracerAlways : Tracer :=
  { tracer0 with sampler := fun _ _ => (true, []) }

/-- Witness for C5: priority 1 forces sampling on an always-no sampler and the
tag is stored; priority 0 clears sampling on an always-yes sampler. -/
theorem startSpan_sampling_priority_witness :
    (tracer0.startSpanWithOptions [] "op" optsPrio1).2.context.IsSampled = true ∧
    ({ key := samplingPriorityKey, value := TagValue.num 1 } : Tag) ∈
      (tracer0.startSpanWithOptions [] "op" optsPrio1).2.tags ∧
    (tracerAlways.startSpanWithOptions [] "op" optsPrio0).2.context.IsSampled = false :=
  ⟨(startSpan_sampling_priority tracer0 [] "op" optsPrio1 1 rfl).1 (by decide),
   (startSpan_sampling_priority tracer0 [] "op" optsPrio1 1 rfl).2.2,
   (startSpan_sampling_priority tracerAlways [] "op" optsPrio0 0 rfl).2.1 rfl⟩

end JaegerClient
